import Mathlib

/-!
Verification of the MYBOOKLET annotation-and-drawing engine
(src/components/Editor.tsx) against its natural-language specification.

Shallow-embedding conventions:
- Each piece of React component state is a record field; every event handler of
  the source becomes a pure state transformer with the same name.
- The raster surface owned by the canvas is modelled as a display list of
  painted primitives (type `Raster`).  A history snapshot
  (`canvas.toDataURL()`) and the pre-stroke snapshot (`ctx.getImageData`) are
  the raster value itself: within one session the spec requires the
  encode/decode round trip to be lossless, so the encoded snapshot is
  identified with the pixel content it encodes.  Consequently
  `restoreCanvasState(dataUrl)` is modelled as assigning that raster value to
  the surface (the asynchronous decode is flattened to its completed effect,
  in program order).
- JS numbers on the drawing path are modelled as rationals; machine floats do
  not occur at any claim instance considered here.
- The history component is stated over an arbitrary snapshot type so that the
  theorems cover every possible snapshot content; the drawing machine uses the
  concrete `Raster` type.
-/

namespace MyBooklet

/-! ## HistoryStack: history, historyStep, and the canvas surface

Source: src/components/Editor.tsx, state `history : string[]`,
`historyStep : number` (initially `[]` and `-1`), handlers
`saveCanvasToHistory`, `handleUndo`, `handleRedo` (their raster branches;
when the active tool is `text` both handlers delegate to the external
rich-text collaborator via `execCommand` and never touch this state). -/

/-- The raster-history component of the editor state: the snapshot list
`history`, the pointer `historyStep` (a JS number holding an integer, `-1`
meaning the pre-first-stroke empty surface), and the current content of the
canvas surface. -/
structure HistState (α : Type) where
  history : List α
  historyStep : Int
  surface : α
deriving DecidableEq, Repr

/-- Source `saveCanvasToHistory`: `data = canvas.toDataURL()` is the current
surface content; `history = [...prev.slice(0, historyStep + 1), data]` and
`historyStep += 1`.  JS `slice(0, e)` with `e ≥ 0` is `List.take e`; in every
reachable state `historyStep + 1 ≥ 0`, and `Int.toNat` agrees with JS there.
The `if (data)` guard is vacuous in the model: the surface always exists. -/
def saveCanvasToHistory {α : Type} (st : HistState α) : HistState α :=
  { st with
    history := st.history.take (st.historyStep + 1).toNat ++ [st.surface]
    historyStep := st.historyStep + 1 }

/-- Source `handleUndo`, raster branch (`tool !== 'text'`): if
`historyStep > 0`, decrement the pointer and restore `history[newStep]`;
if `historyStep === 0`, set the pointer to `-1` and clear the canvas
(`ctx.clearRect`), i.e. the surface becomes the empty raster `emptyS`;
otherwise do nothing.  `List.getD` is JS indexing, with an arbitrary default
that is never consulted at an in-range index. -/
def handleUndo {α : Type} (emptyS : α) (st : HistState α) : HistState α :=
  if st.historyStep > 0 then
    { st with
      historyStep := st.historyStep - 1
      surface := st.history.getD (st.historyStep - 1).toNat emptyS }
  else if st.historyStep = 0 then
    { st with historyStep := -1, surface := emptyS }
  else st

/-- Source `handleRedo`, raster branch: if `historyStep < history.length - 1`,
increment the pointer and restore `history[newStep]`; otherwise do nothing. -/
def handleRedo {α : Type} (emptyS : α) (st : HistState α) : HistState α :=
  if st.historyStep < (st.history.length : Int) - 1 then
    { st with
      historyStep := st.historyStep + 1
      surface := st.history.getD (st.historyStep + 1).toNat emptyS }
  else st

/-- One completed stroke, seen by the history component: during the stroke the
painting mutates the canvas in place (its final content is `s`), and the
closing `stopDrawing` calls `saveCanvasToHistory`, which pushes the current
surface.  Image insertion (`handleImageUpload`) follows the same shape. -/
def completedStroke {α : Type} (st : HistState α) (s : α) : HistState α :=
  saveCanvasToHistory { st with surface := s }

/-- The editor state just after mounting with no stored drawing:
`history = []`, `historyStep = -1`, blank canvas. -/
def initHist {α : Type} (emptyS : α) : HistState α :=
  ⟨[], -1, emptyS⟩

/-- The states that the raster-history component can reach: the initial state,
followed by any interleaving of completed strokes (or image insertions),
undos, and redos.  Loading a page that already has `drawingData d` produces
`⟨[d], 0, d⟩ = completedStroke (initHist emptyS) d`, so it is covered. -/
inductive Reachable {α : Type} (emptyS : α) : HistState α → Prop
  | init : Reachable emptyS (initHist emptyS)
  | stroke (st : HistState α) (s : α) :
      Reachable emptyS st → Reachable emptyS (completedStroke st s)
  | undo (st : HistState α) :
      Reachable emptyS st → Reachable emptyS (handleUndo emptyS st)
  | redo (st : HistState α) :
      Reachable emptyS st → Reachable emptyS (handleRedo emptyS st)

/-- Normal form of a history state whose surface agrees with the pointer:
snapshot list `ss`, pointer `j`, and the surface shown for that pointer
(`emptyS` below index 0, otherwise the snapshot at `j`). -/
def stateAt {α : Type} (emptyS : α) (ss : List α) (j : Int) : HistState α :=
  ⟨ss, j, if j < 0 then emptyS else ss.getD j.toNat emptyS⟩

lemma handleUndo_stateAt {α : Type} (emptyS : α) (ss : List α) (j : Int)
    (hj : -1 ≤ j) :
    handleUndo emptyS (stateAt emptyS ss j) = stateAt emptyS ss (max (-1) (j - 1)) := by
  unfold handleUndo stateAt
  rcases lt_trichotomy j 0 with h | h | h
  · have hj' : j = -1 := by omega
    subst hj'
    norm_num
  · subst h
    norm_num
  · have h1 : max (-1) (j - 1) = j - 1 := by omega
    simp only [HistState.mk.injEq]
    rw [if_pos h, h1, if_neg (by omega)]

lemma handleUndo_iterate_stateAt {α : Type} (emptyS : α) (ss : List α)
    (j : Int) (hj : -1 ≤ j) (k : Nat) :
    (handleUndo emptyS)^[k] (stateAt emptyS ss j) = stateAt emptyS ss (max (-1) (j - k)) := by
  induction k generalizing j with
  | zero =>
    simp only [Function.iterate_zero_apply, Nat.cast_zero, sub_zero, max_eq_right hj]
  | succ k ih =>
    rw [Function.iterate_succ_apply, handleUndo_stateAt emptyS ss j hj,
      ih _ (le_max_left _ _)]
    congr 1
    omega

lemma handleRedo_stateAt {α : Type} (emptyS : α) (ss : List α) (j : Int)
    (hj : -1 ≤ j) (hj2 : j ≤ (ss.length : Int) - 1) :
    handleRedo emptyS (stateAt emptyS ss j) = stateAt emptyS ss (min ((ss.length : Int) - 1) (j + 1)) := by
  unfold handleRedo stateAt
  dsimp only
  rcases lt_or_ge j ((ss.length : Int) - 1) with h | h
  · have h1 : min ((ss.length : Int) - 1) (j + 1) = j + 1 := by omega
    rw [if_pos h, h1, if_neg (by omega)]
  · have h1 : min ((ss.length : Int) - 1) (j + 1) = j := by omega
    rw [if_neg (by omega), h1]

lemma handleRedo_iterate_stateAt {α : Type} (emptyS : α) (ss : List α)
    (j : Int) (hj : -1 ≤ j) (hj2 : j ≤ (ss.length : Int) - 1) (k : Nat) :
    (handleRedo emptyS)^[k] (stateAt emptyS ss j)
      = stateAt emptyS ss (min ((ss.length : Int) - 1) (j + k)) := by
  induction k generalizing j with
  | zero =>
    simp only [Function.iterate_zero_apply, Nat.cast_zero, add_zero, min_eq_right hj2]
  | succ k ih =>
    have hmin1 : -1 ≤ min ((ss.length : Int) - 1) (j + 1) := by
      rcases min_cases ((ss.length : Int) - 1) (j + 1) with ⟨h, _⟩ | ⟨h, _⟩ <;> omega
    rw [Function.iterate_succ_apply, handleRedo_stateAt emptyS ss j hj hj2,
      ih (min ((ss.length : Int) - 1) (j + 1)) hmin1 (min_le_left _ _)]
    congr 1
    omega

lemma foldl_completedStroke_stateAt {α : Type} (emptyS : α) (ss ts : List α) :
    ts.foldl completedStroke (stateAt emptyS ss ((ss.length : Int) - 1))
      = stateAt emptyS (ss ++ ts) (((ss ++ ts).length : Int) - 1) := by
  induction ts generalizing ss with
  | nil => simp
  | cons t ts ih =>
    have hstep : completedStroke (stateAt emptyS ss ((ss.length : Int) - 1)) t
        = stateAt emptyS (ss ++ [t]) (((ss ++ [t]).length : Int) - 1) := by
      unfold completedStroke saveCanvasToHistory stateAt
      simp only [HistState.mk.injEq]
      have h1 : ((ss.length : Int) - 1 + 1).toNat = ss.length := by omega
      have hlen : ((ss ++ [t]).length : Int) - 1 = (ss.length : Int) := by
        simp only [List.length_append, List.length_cons, List.length_nil]
        push_cast
        ring
      refine ⟨?_, by rw [hlen]; omega, ?_⟩
      · rw [h1, List.take_length]
      · rw [hlen, if_neg (by omega)]
        rw [Int.toNat_natCast, List.getD_append_right _ _ _ _ le_rfl]
        simp
    rw [List.foldl_cons, hstep, ih (ss ++ [t])]
    simp

lemma foldl_completedStroke_init {α : Type} (emptyS : α) (ss : List α) :
    ss.foldl completedStroke (initHist emptyS)
      = stateAt emptyS ss ((ss.length : Int) - 1) := by
  have h0 : initHist (α := α) emptyS = stateAt emptyS ([] : List α) (((([] : List α).length : Int)) - 1) := by
    unfold initHist stateAt
    norm_num
  rw [h0, foldl_completedStroke_stateAt]
  simp

/-- Claim C1: for every sequence of `N` completed strokes starting from the
empty history (`historyStep = -1`, `history = []`), applying `undo()` `N`
times and then `redo()` `N` times restores the raster surface to the original
final snapshot bit-for-bit (here: the surface value is literally equal), and
the history pointer `historyStep` ends at `N - 1`. -/
theorem undo_redo_roundtrip {α : Type} (emptyS : α) (ss : List α) :
    ((handleRedo emptyS)^[ss.length]
        ((handleUndo emptyS)^[ss.length] (ss.foldl completedStroke (initHist emptyS)))).surface
      = (ss.foldl completedStroke (initHist emptyS)).surface
    ∧ ((handleRedo emptyS)^[ss.length]
        ((handleUndo emptyS)^[ss.length] (ss.foldl completedStroke (initHist emptyS)))).historyStep
      = (ss.length : Int) - 1 := by
  have hfold := foldl_completedStroke_init emptyS ss
  have hundo : (handleUndo emptyS)^[ss.length] (ss.foldl completedStroke (initHist emptyS))
      = stateAt emptyS ss (-1) := by
    rw [hfold, handleUndo_iterate_stateAt emptyS ss _ (by omega)]
    congr 1
    omega
  have hredo : (handleRedo emptyS)^[ss.length]
      ((handleUndo emptyS)^[ss.length] (ss.foldl completedStroke (initHist emptyS)))
      = stateAt emptyS ss ((ss.length : Int) - 1) := by
    rw [hundo, handleRedo_iterate_stateAt emptyS ss (-1) (by omega) (by omega)]
    congr 1
    omega
  rw [hredo, hfold]
  exact ⟨rfl, rfl⟩

/-- Claim C2: a history push after an undo discards every snapshot strictly
after the current pointer before appending.  For every history state
satisfying the pointer invariant, `saveCanvasToHistory` truncates the
snapshot sequence to indices `0..historyStep`, appends the pushed snapshot
(the current surface), and advances the pointer to the new last index; in
particular, from history `[s0, s1, s2]` at pointer `2`, `undo()` followed by
a completed stroke pushing `s3` yields history `[s0, s1, s3]` at pointer 2. -/
theorem push_truncates_appends_advances {α : Type} (emptyS : α) (st : HistState α)
    (h1 : -1 ≤ st.historyStep) (h2 : st.historyStep ≤ (st.history.length : Int) - 1) :
    (saveCanvasToHistory st).history
        = st.history.take (st.historyStep + 1).toNat ++ [st.surface]
    ∧ (saveCanvasToHistory st).historyStep
        = ((saveCanvasToHistory st).history.length : Int) - 1
    ∧ ∀ s0 s1 s2 s3 : α,
        completedStroke (handleUndo emptyS (⟨[s0, s1, s2], 2, s2⟩ : HistState α)) s3
          = (⟨[s0, s1, s3], 2, s3⟩ : HistState α) := by
  refine ⟨rfl, ?_, ?_⟩
  · unfold saveCanvasToHistory
    simp only [List.length_append, List.length_take]
    have : (st.historyStep + 1).toNat ≤ st.history.length := by omega
    simp only [List.length_cons, List.length_nil]
    omega
  · intro s0 s1 s2 s3
    unfold completedStroke handleUndo saveCanvasToHistory
    norm_num
    rfl

/-- Claim C3: in every reachable state of the history component,
`-1 ≤ historyStep ≤ history.length - 1`; `undo()` at `historyStep = -1` is a
no-op (history, pointer, and surface unchanged); `redo()` at
`historyStep = history.length - 1` is a no-op; and `undo()` at
`historyStep = 0` sets the pointer to `-1` and clears the surface to the
empty state. -/
theorem historyStep_invariant_and_noops {α : Type} (emptyS : α) :
    (∀ st : HistState α, Reachable emptyS st →
        -1 ≤ st.historyStep ∧ st.historyStep ≤ (st.history.length : Int) - 1)
    ∧ (∀ st : HistState α, st.historyStep = -1 → handleUndo emptyS st = st)
    ∧ (∀ st : HistState α, st.historyStep = (st.history.length : Int) - 1 →
        handleRedo emptyS st = st)
    ∧ (∀ st : HistState α, st.historyStep = 0 →
        handleUndo emptyS st = ⟨st.history, -1, emptyS⟩) := by
  refine ⟨?_, ?_, ?_, ?_⟩
  · intro st h
    induction h with
    | init => simp [initHist]
    | stroke st s _ ih =>
      unfold completedStroke saveCanvasToHistory
      simp only [List.length_append, List.length_take, List.length_cons, List.length_nil]
      omega
    | undo st _ ih =>
      unfold handleUndo
      split_ifs with hpos hzero
      · simpa using ⟨by omega, by omega⟩
      · simp
      · exact ih
    | redo st _ ih =>
      unfold handleRedo
      split_ifs with hlt
      · simpa using ⟨by omega, by omega⟩
      · exact ih
  · intro st hst
    unfold handleUndo
    rw [if_neg (by omega), if_neg (by omega)]
  · intro st hst
    unfold handleRedo
    rw [if_neg (by omega)]
  · intro st hst
    unfold handleUndo
    rw [if_neg (by omega), if_pos hst]

/-- Witness for C2 at a concrete input: the state `⟨[1, 2], 1, 9⟩` over `ℕ`
satisfies the pointer invariant, the push appends `9` after truncation, and
the concrete `[s0, s1, s2]`-scenario holds at `10, 11, 12, 13`. -/
theorem push_truncates_appends_advances_witness :
    (saveCanvasToHistory (⟨[1, 2], 1, 9⟩ : HistState ℕ)).history
        = [1, 2].take ((1 : Int) + 1).toNat ++ [9]
    ∧ completedStroke (handleUndo 0 (⟨[10, 11, 12], 2, 12⟩ : HistState ℕ)) 13
        = (⟨[10, 11, 13], 2, 13⟩ : HistState ℕ) :=
  ⟨(push_truncates_appends_advances (0 : ℕ) ⟨[1, 2], 1, 9⟩ (by norm_num) (by norm_num)).1,
   (push_truncates_appends_advances (0 : ℕ) ⟨[10, 11, 12], 2, 12⟩ (by norm_num)
      (by norm_num)).2.2 10 11 12 13⟩

/-- Witness for C3 at concrete inputs over `ℕ`: the state `⟨[7], -1, 0⟩` is
reachable (stroke then undo) and satisfies the invariant; undo at pointer
`-1` and redo at the last index are no-ops; undo at pointer `0` clears. -/
theorem historyStep_invariant_and_noops_witness :
    (-1 ≤ (⟨[7], -1, 0⟩ : HistState ℕ).historyStep
        ∧ (⟨[7], -1, 0⟩ : HistState ℕ).historyStep
            ≤ (((⟨[7], -1, 0⟩ : HistState ℕ).history.length : Int) - 1))
    ∧ handleUndo 0 (⟨[7], -1, 0⟩ : HistState ℕ) = ⟨[7], -1, 0⟩
    ∧ handleRedo 0 (⟨[5], 0, 5⟩ : HistState ℕ) = ⟨[5], 0, 5⟩
    ∧ handleUndo 0 (⟨[5], 0, 5⟩ : HistState ℕ) = ⟨[5], -1, 0⟩ := by
  have hreach : Reachable (0 : ℕ) (⟨[7], -1, 0⟩ : HistState ℕ) := by
    have h1 : completedStroke (initHist (0 : ℕ)) 7 = (⟨[7], 0, 7⟩ : HistState ℕ) := rfl
    have h2 : handleUndo (0 : ℕ) (⟨[7], 0, 7⟩ : HistState ℕ) = ⟨[7], -1, 0⟩ := rfl
    have hinit : Reachable (0 : ℕ) (initHist (0 : ℕ)) := Reachable.init
    have := Reachable.undo _ (Reachable.stroke _ 7 hinit)
    rwa [h1, h2] at this
  refine ⟨(historyStep_invariant_and_noops (0 : ℕ)).1 _ hreach, ?_, ?_, ?_⟩
  · exact (historyStep_invariant_and_noops (0 : ℕ)).2.1 _ rfl
  · exact (historyStep_invariant_and_noops (0 : ℕ)).2.2.1 _ (by norm_num)
  · exact (historyStep_invariant_and_noops (0 : ℕ)).2.2.2 _ rfl

/-! ## ToolState: color selection and the recent-color cache

Source: src/components/Editor.tsx, constant `PRESET_COLORS`, state
`color : string`, `recentColors : string[]` (initially `'#135bec'` and `[]`),
handler `handleSetColor`. -/

/-- Source `PRESET_COLORS`, the fixed preset palette. -/
def PRESET_COLORS : List String :=
  ["#000000", "#135bec", "#ef4444", "#22c55e", "#a855f7", "#f59e0b", "#ec4899"]

/-- The color-related component of the editor state. -/
structure ColorState where
  color : String
  recentColors : List String
deriving DecidableEq, Repr

/-- The initial color state on mount: `useState('#135bec')`, `useState([])`. -/
def initColorState : ColorState :=
  ⟨"#135bec", []⟩

/-- Source `handleSetColor`: always set the active color; if the new color is
not in `PRESET_COLORS` (`!PRESET_COLORS.includes(newColor)`), remove any prior
occurrence of it from `recentColors` (`prev.filter(c => c !== newColor)`),
push it to the front, and truncate to 5 entries (`slice(0, 5)`). -/
def handleSetColor (st : ColorState) (newColor : String) : ColorState :=
  if newColor ∈ PRESET_COLORS then
    { st with color := newColor }
  else
    { color := newColor
      recentColors :=
        (newColor :: st.recentColors.filter (fun c => decide (c ≠ newColor))).take 5 }

/-- The invariant claimed for the recent-color cache: at most 5 entries, no
duplicates, and no color from the fixed preset palette. -/
def recentColorsInvariant (rc : List String) : Prop :=
  rc.length ≤ 5 ∧ rc.Nodup ∧ ∀ c ∈ rc, c ∉ PRESET_COLORS

lemma handleSetColor_preserves (st : ColorState) (c : String)
    (h : recentColorsInvariant st.recentColors) :
    recentColorsInvariant (handleSetColor st c).recentColors := by
  obtain ⟨hlen, hnodup, hpre⟩ := h
  unfold handleSetColor
  split_ifs with hc
  · exact ⟨hlen, hnodup, hpre⟩
  · refine ⟨?_, ?_, ?_⟩
    · exact le_trans (List.length_take_le _ _) (by simp)
    · apply List.Nodup.sublist (List.take_sublist _ _)
      refine List.nodup_cons.mpr ⟨?_, hnodup.filter _⟩
      intro hmem
      simp only [List.mem_filter, decide_eq_true_eq] at hmem
      exact hmem.2 rfl
    · intro x hx
      have hx' := (List.take_sublist _ _).mem hx
      rcases List.mem_cons.mp hx' with h1 | h1
      · subst h1; exact hc
      · exact hpre x (List.mem_of_mem_filter h1)

/-- Claim C6: after every sequence of `setColor` calls starting from the
initial state, `recentColors` has at most 5 entries, no duplicates, and no
color from the fixed preset palette; moreover a `setColor c` with `c` not in
the presets removes any prior occurrence of `c`, places `c` at the front, and
truncates to 5. -/
theorem recentColors_invariant_and_lru :
    (∀ cs : List String,
        recentColorsInvariant ((cs.foldl handleSetColor initColorState).recentColors))
    ∧ ∀ (st : ColorState) (c : String), c ∉ PRESET_COLORS →
        (handleSetColor st c).recentColors
          = (c :: st.recentColors.filter (fun x => decide (x ≠ c))).take 5 := by
  constructor
  · intro cs
    have hgen : ∀ (st : ColorState), recentColorsInvariant st.recentColors →
        recentColorsInvariant ((cs.foldl handleSetColor st).recentColors) := by
      induction cs with
      | nil => intro st h; exact h
      | cons c cs ih =>
        intro st h
        exact ih _ (handleSetColor_preserves st c h)
    exact hgen initColorState ⟨by simp [initColorState], by simp [initColorState], by simp [initColorState]⟩
  · intro st c hc
    unfold handleSetColor
    rw [if_neg hc]

/-- Witness for C6 at a concrete input: `"#ffffff"` is not a preset color, and
setting it from the state `⟨"#000000", ["#ffffff", "#abcdef"]⟩` moves it to
the front without a duplicate. -/
theorem recentColors_invariant_and_lru_witness :
    (handleSetColor ⟨"#000000", ["#ffffff", "#abcdef"]⟩ "#ffffff").recentColors
      = ("#ffffff" :: List.filter (fun x => decide (x ≠ "#ffffff")) ["#ffffff", "#abcdef"]).take 5 :=
  recentColors_invariant_and_lru.2 ⟨"#000000", ["#ffffff", "#abcdef"]⟩ "#ffffff" (by decide)

/-! ## CoordinateMapper

Source: src/components/Editor.tsx, `getCoordinates`.  The canvas geometry is
the backing raster resolution (`canvas.width`, `canvas.height`) together with
the displayed bounding rectangle (`canvas.getBoundingClientRect()`).  A
pointer event carries either direct client coordinates (mouse) or a touch
list; real `touchstart`/`touchmove` events carry at least one touch point, so
a touch event is modelled as a first point plus the remaining ones. -/

/-- Backing resolution and displayed rectangle of the canvas element. -/
structure CanvasGeom where
  width : ℚ
  height : ℚ
  rectLeft : ℚ
  rectTop : ℚ
  rectWidth : ℚ
  rectHeight : ℚ
deriving DecidableEq, Repr

/-- A pointer event: either a mouse event with direct client coordinates, or a
touch event with its touch list (`touches[0]` is the `first` component). -/
inductive PointerEvent where
  | mouse (clientX clientY : ℚ)
  | touch (first : ℚ × ℚ) (rest : List (ℚ × ℚ))
deriving DecidableEq, Repr

/-- The client position the source reads: the first touch point when the
event has a `touches` member, otherwise the direct mouse position. -/
def clientPos : PointerEvent → ℚ × ℚ
  | .mouse x y => (x, y)
  | .touch first _ => first

/-- Source `getCoordinates`: if the canvas is not attached
(`canvasRef.current` is null), return the origin; otherwise scale the client
position relative to the bounding rectangle by `canvas.width / rect.width`
and `canvas.height / rect.height` independently per axis. -/
def getCoordinates (canvas : Option CanvasGeom) (e : PointerEvent) : ℚ × ℚ :=
  match canvas with
  | none => (0, 0)
  | some c =>
    let p := clientPos e
    let scaleX := c.width / c.rectWidth
    let scaleY := c.height / c.rectHeight
    ((p.1 - c.rectLeft) * scaleX, (p.2 - c.rectTop) * scaleY)

/-- The geometry after doubling both the backing surface resolution and the
displayed element size (the element keeps its position). -/
def doubleGeom (c : CanvasGeom) : CanvasGeom :=
  ⟨2 * c.width, 2 * c.height, c.rectLeft, c.rectTop, 2 * c.rectWidth, 2 * c.rectHeight⟩

/-- Counterexample to claim C7 as stated: the same relative pointer position
(here the midpoint of the displayed element, with the element at the origin)
does NOT map to identical coordinates after doubling both the backing
resolution and the displayed size.  With backing 100x100 displayed at 50x50,
the midpoint client position `(25, 25)` maps to `(50, 50)`; after doubling
(backing 200x200 displayed at 100x100) the midpoint client position
`(50, 50)` maps to `(100, 100)`. -/
theorem coordinate_double_not_invariant_relative :
    getCoordinates (some ⟨100, 100, 0, 0, 50, 50⟩) (.mouse 25 25) = ((50 : ℚ), (50 : ℚ))
    ∧ getCoordinates (some (doubleGeom ⟨100, 100, 0, 0, 50, 50⟩)) (.mouse 50 50)
        = ((100 : ℚ), (100 : ℚ))
    ∧ ((25 : ℚ) - 0) / 50 = ((50 : ℚ) - 0) / 100
    ∧ getCoordinates (some (doubleGeom ⟨100, 100, 0, 0, 50, 50⟩)) (.mouse 50 50)
        ≠ getCoordinates (some ⟨100, 100, 0, 0, 50, 50⟩) (.mouse 25 25) := by
  refine ⟨?_, ?_, by norm_num, ?_⟩
  · show ((25 - 0) * (100 / 50), (25 - 0) * (100 / 50)) = ((50 : ℚ), (50 : ℚ))
    norm_num
  · show ((50 - 0) * (2 * 100 / (2 * 50)), (50 - 0) * (2 * 100 / (2 * 50)))
        = ((100 : ℚ), (100 : ℚ))
    norm_num
  · intro h
    rw [Prod.ext_iff] at h
    have h1 := h.1
    norm_num [getCoordinates, doubleGeom, clientPos] at h1

/-- Claim C7, amended: the coordinate mapping is scale-invariant in the sense
that for the same absolute pointer position (the same client coordinates,
with the element keeping its position), doubling both the backing surface
resolution and the displayed element size yields mapped coordinates identical
to those of the undoubled configuration (the per-axis ratio
`surface / displayed` is unchanged); for the same relative position within
the element, the doubled configuration consequently maps to exactly twice
the undoubled coordinates, not to identical ones. -/
theorem coordinate_double_invariant_absolute (c : CanvasGeom) (e : PointerEvent)
    (hw : 0 < c.rectWidth) (hh : 0 < c.rectHeight) :
    getCoordinates (some (doubleGeom c)) e = getCoordinates (some c) e
    ∧ ∀ tx ty : ℚ,
        (getCoordinates (some (doubleGeom c))
            (.mouse (c.rectLeft + tx * (2 * c.rectWidth)) (c.rectTop + ty * (2 * c.rectHeight)))).1
          = 2 * (getCoordinates (some c)
              (.mouse (c.rectLeft + tx * c.rectWidth) (c.rectTop + ty * c.rectHeight))).1
        ∧ (getCoordinates (some (doubleGeom c))
            (.mouse (c.rectLeft + tx * (2 * c.rectWidth)) (c.rectTop + ty * (2 * c.rectHeight)))).2
          = 2 * (getCoordinates (some c)
              (.mouse (c.rectLeft + tx * c.rectWidth) (c.rectTop + ty * c.rectHeight))).2 := by
  constructor
  · unfold getCoordinates doubleGeom
    dsimp only
    have hx : 2 * c.width / (2 * c.rectWidth) = c.width / c.rectWidth :=
      mul_div_mul_left _ _ (by norm_num)
    have hy : 2 * c.height / (2 * c.rectHeight) = c.height / c.rectHeight :=
      mul_div_mul_left _ _ (by norm_num)
    rw [hx, hy]
  · intro tx ty
    unfold getCoordinates doubleGeom clientPos
    dsimp only
    constructor
    · field_simp
      ring
    · field_simp
      ring

/-- Witness for the amended C7 at a concrete input: backing 100x100 displayed
at 50x50 at position (3, 4); the doubled configuration maps the same client
position (28, 29) to the same surface point. -/
theorem coordinate_double_invariant_absolute_witness :
    getCoordinates (some (doubleGeom ⟨100, 100, 3, 4, 50, 50⟩)) (.mouse 28 29)
      = getCoordinates (some ⟨100, 100, 3, 4, 50, 50⟩) (.mouse 28 29) :=
  (coordinate_double_invariant_absolute ⟨100, 100, 3, 4, 50, 50⟩ (.mouse 28 29)
    (by norm_num) (by norm_num)).1

/-- Claim C8: the coordinate mapper reads the first touch point when the event
is touch-sourced and the direct client position otherwise, scales
independently per axis by `surfaceWidth / displayedWidth` and
`surfaceHeight / displayedHeight`, and returns the origin without failing
when the canvas surface is not initialized. -/
theorem getCoordinates_contract :
    (∀ e : PointerEvent, getCoordinates none e = (0, 0))
    ∧ (∀ (c : Option CanvasGeom) (first : ℚ × ℚ) (rest : List (ℚ × ℚ)),
        getCoordinates c (.touch first rest) = getCoordinates c (.mouse first.1 first.2))
    ∧ ∀ (c : CanvasGeom) (e : PointerEvent),
        getCoordinates (some c) e
          = (((clientPos e).1 - c.rectLeft) * (c.width / c.rectWidth),
             ((clientPos e).2 - c.rectTop) * (c.height / c.rectHeight)) := by
  refine ⟨fun e => rfl, ?_, fun c e => rfl⟩
  intro c first rest
  cases c with
  | none => rfl
  | some c => rfl

/-! ## StrokeRenderer: the drawing state machine

Source: src/components/Editor.tsx, types `ToolType`, `ShapeType`, state
`tool`, `selectedShape`, `color`, `isDrawing`, refs `startPos`, `snapshot`,
`isShiftPressed`, handlers `startDrawing`, `draw`, `stopDrawing`.

The canvas raster is modelled as a display list (`Raster`): every canvas
paint call appends one `RenderOp` carrying the context parameters in force
(`lineWidth`, `globalAlpha`, `globalCompositeOperation`, `strokeStyle`) and
the painted primitive.  `ctx.putImageData(snapshot, 0, 0)` replaces the
surface with the saved snapshot value.  For an ordinary freehand sample the
source extends the open path by one segment and restrokes it; visually this
adds the new segment, and it is modelled as appending the segment from the
current path position (`pathPos` tracks `moveTo`/`lineTo`).  `fillStyle` is
set but no fill call exists, so it does not appear in the display list.
These handlers consume the already-mapped surface coordinates; the source
obtains them from `getCoordinates`, which is modelled above. -/

/-- The composite modes the source sets on the drawing context. -/
inductive CompositeOp where
  | sourceOver
  | multiply
  | destinationOut
deriving DecidableEq, Repr

/-- The context parameters in force when a primitive is stroked. -/
structure StrokeStyle where
  lineWidth : ℚ
  alpha : ℚ
  comp : CompositeOp
  strokeColor : String
deriving DecidableEq, Repr

/-- One painted primitive.  For the circle the source computes
`radius = Math.sqrt(width*width + height*height)` and passes it to
`ctx.arc(startX, startY, radius, 0, 2*Math.PI)`; since the square root of a
rational is not rational in general, the op records the exact squared radius
`radiusSq = width*width + height*height` — a circle of radius `r ≥ 0` is the
op with `radiusSq = r * r`. -/
inductive Prim where
  | rect (x y w h : ℚ)
  | circle (cx cy radiusSq : ℚ)
  | triangle (x1 y1 x2 y2 x3 y3 : ℚ)
  | segment (x1 y1 x2 y2 : ℚ)
deriving DecidableEq, Repr

/-- One stroked primitive with its context parameters. -/
structure RenderOp where
  style : StrokeStyle
  prim : Prim
deriving DecidableEq, Repr

/-- The canvas content: the list of stroked primitives, in paint order. -/
abbrev Raster := List RenderOp

/-- Source `ToolType`. -/
inductive ToolType where
  | text
  | fine_liner
  | pen
  | marker
  | highlighter
  | eraser
  | shape
deriving DecidableEq, Repr

/-- Source `ShapeType`. -/
inductive ShapeType where
  | rect
  | circle
  | triangle
  | line
deriving DecidableEq, Repr

/-- The drawing-related component state of the editor. -/
structure EState where
  tool : ToolType
  selectedShape : ShapeType
  color : String
  isDarkMode : Bool
  isDrawing : Bool
  hist : HistState Raster
  startPos : Option (ℚ × ℚ)
  snapshot : Option Raster
  pathPos : Option (ℚ × ℚ)
  isShiftPressed : Bool
deriving DecidableEq, Repr

/-- Source `startDrawing`: ignored when the text tool is active; otherwise
set `isDrawing`, record the start coordinate, capture the full pre-stroke
snapshot (`ctx.getImageData`), and, unless the shape tool is active with a
non-line shape, begin a fresh path at the start coordinate. -/
def startDrawing (st : EState) (pos : ℚ × ℚ) : EState :=
  if st.tool = .text then st
  else
    { st with
      isDrawing := true
      startPos := some pos
      snapshot := some st.hist.surface
      pathPos :=
        if st.tool ≠ .shape ∨ st.selectedShape = .line then some pos else st.pathPos }

/-- Source `draw`, one move sample at the mapped coordinate `pos`.  Guard:
nothing happens unless a stroke is in progress with a recorded start
coordinate and a non-text tool.  Preview branch
(`tool === 'shape' || (tool !== 'eraser' && isShiftPressed)`): restore the
pre-stroke snapshot if one exists, then stroke exactly one primitive from
the start coordinate to `pos` with the tool parameters of the source switch.
Otherwise (ordinary freehand, including the eraser): extend the current path
with one segment to `pos` and stroke incrementally, with the freehand switch
parameters (`eraser` = width 40, destination-out, background stroke color). -/
def draw (st : EState) (pos : ℚ × ℚ) : EState :=
  match st.startPos with
  | none => st
  | some sp =>
    if st.isDrawing = false ∨ st.tool = .text then st
    else
      let strokeColor :=
        if st.tool = .eraser then (if st.isDarkMode then "#1c222e" else "white") else st.color
      if st.tool = .shape ∨ (st.tool ≠ .eraser ∧ st.isShiftPressed = true) then
        let base := match st.snapshot with | some s => s | none => st.hist.surface
        let style : StrokeStyle :=
          if st.tool = .shape then ⟨2, 1, .sourceOver, strokeColor⟩
          else
            match st.tool with
            | .fine_liner => ⟨1, 1, .sourceOver, strokeColor⟩
            | .pen => ⟨3, 1, .sourceOver, strokeColor⟩
            | .marker => ⟨8, 1, .sourceOver, strokeColor⟩
            | .highlighter => ⟨24, 0.35, .multiply, strokeColor⟩
            | _ => ⟨2, 1, .sourceOver, strokeColor⟩
        let w := pos.1 - sp.1
        let h := pos.2 - sp.2
        let prim : Prim :=
          if st.tool = .shape then
            match st.selectedShape with
            | .rect => .rect sp.1 sp.2 w h
            | .circle => .circle sp.1 sp.2 (w * w + h * h)
            | .triangle =>
                .triangle (sp.1 + w / 2) sp.2 sp.1 (sp.2 + h) (sp.1 + w) (sp.2 + h)
            | .line => .segment sp.1 sp.2 pos.1 pos.2
          else .segment sp.1 sp.2 pos.1 pos.2
        { st with
          hist := { st.hist with surface := base ++ [⟨style, prim⟩] }
          pathPos := some pos }
      else
        let style : StrokeStyle :=
          match st.tool with
          | .fine_liner => ⟨1, 1, .sourceOver, strokeColor⟩
          | .pen => ⟨3, 1, .sourceOver, strokeColor⟩
          | .marker => ⟨8, 1, .sourceOver, strokeColor⟩
          | .highlighter => ⟨24, 0.35, .multiply, strokeColor⟩
          | .eraser => ⟨40, 1, .destinationOut, strokeColor⟩
          | _ => ⟨2, 1, .sourceOver, strokeColor⟩
        let p0 := st.pathPos.getD sp
        { st with
          hist :=
            { st.hist with
              surface := st.hist.surface ++ [⟨style, .segment p0.1 p0.2 pos.1 pos.2⟩] }
          pathPos := some pos }

/-- Source `stopDrawing` (pointer-up, pointer-out, touch-end): if a stroke is
in progress, close it, clear the start coordinate and the pre-stroke
snapshot, and push the current canvas to the history
(`saveCanvasToHistory`). -/
def stopDrawing (st : EState) : EState :=
  if st.isDrawing = true then
    { st with
      isDrawing := false
      startPos := none
      snapshot := none
      hist := saveCanvasToHistory st.hist }
  else st

lemma startDrawing_hist (s : EState) (p : ℚ × ℚ) :
    (startDrawing s p).hist = s.hist := by
  unfold startDrawing
  split_ifs <;> rfl

lemma startDrawing_isDrawing (s : EState) (p : ℚ × ℚ) (h : s.tool ≠ .text) :
    (startDrawing s p).isDrawing = true := by
  unfold startDrawing
  rw [if_neg h]

lemma draw_hist_meta (s : EState) (p : ℚ × ℚ) :
    (draw s p).hist.history = s.hist.history
    ∧ (draw s p).hist.historyStep = s.hist.historyStep
    ∧ (draw s p).isDrawing = s.isDrawing := by
  unfold draw
  cases hsp : s.startPos with
  | none => exact ⟨rfl, rfl, rfl⟩
  | some sp =>
    split_ifs <;> exact ⟨rfl, rfl, rfl⟩

/-- Claim C4: with the shape tool in circle mode, a stroke started at
`(10, 10)` and dragged to `(40, 10)` paints (and, on pointer-up, commits) a
circle centered at `(10, 10)` whose radius is the Euclidean distance from
start to current coordinate, namely 30 (the op records the squared radius
`900`, and `30` is the unique nonnegative rational whose square is `900`);
neither `startDrawing` nor any `draw` sample ever touches the history or the
pointer, and the closing `stopDrawing` appends exactly one new snapshot (the
painted surface) and advances the pointer by one. -/
theorem shape_circle_commit (st : EState)
    (htool : st.tool = .shape) (hshape : st.selectedShape = .circle)
    (htip : st.hist.historyStep = (st.hist.history.length : Int) - 1) :
    (draw (startDrawing st (10, 10)) (40, 10)).hist.surface
        = st.hist.surface
            ++ [⟨⟨2, 1, .sourceOver, st.color⟩, .circle 10 10 900⟩]
    ∧ (∀ r : ℚ, 0 ≤ r → r * r = 900 → r = 30)
    ∧ (∀ (s : EState) (p : ℚ × ℚ),
        (startDrawing s p).hist.history = s.hist.history
        ∧ (startDrawing s p).hist.historyStep = s.hist.historyStep
        ∧ (draw s p).hist.history = s.hist.history
        ∧ (draw s p).hist.historyStep = s.hist.historyStep)
    ∧ (stopDrawing (draw (startDrawing st (10, 10)) (40, 10))).hist.history
        = st.hist.history ++ [(draw (startDrawing st (10, 10)) (40, 10)).hist.surface]
    ∧ (stopDrawing (draw (startDrawing st (10, 10)) (40, 10))).hist.historyStep
        = st.hist.historyStep + 1 := by
  have httext : st.tool ≠ ToolType.text := by
    rw [htool]
    exact fun hcon => ToolType.noConfusion hcon
  have hst1 : startDrawing st (10, 10)
      = { st with
          isDrawing := true
          startPos := some ((10 : ℚ), (10 : ℚ))
          snapshot := some st.hist.surface
          pathPos :=
            if st.tool ≠ .shape ∨ st.selectedShape = .line then some (10, 10)
            else st.pathPos } := by
    unfold startDrawing
    rw [if_neg httext]
  have hsurf : (draw (startDrawing st (10, 10)) (40, 10)).hist.surface
      = st.hist.surface ++ [⟨⟨2, 1, .sourceOver, st.color⟩, .circle 10 10 900⟩] := by
    rw [hst1]
    unfold draw
    simp only [htool, hshape]
    norm_num
    simp
  have hradius : ∀ r : ℚ, 0 ≤ r → r * r = 900 → r = 30 := by
    intro r hr h
    have h2 : (r - 30) * (r + 30) = 0 := by nlinarith
    rcases mul_eq_zero.mp h2 with h3 | h3
    · linarith
    · linarith
  have hmeta : ∀ (s : EState) (p : ℚ × ℚ),
      (startDrawing s p).hist.history = s.hist.history
      ∧ (startDrawing s p).hist.historyStep = s.hist.historyStep
      ∧ (draw s p).hist.history = s.hist.history
      ∧ (draw s p).hist.historyStep = s.hist.historyStep := by
    intro s p
    exact ⟨by rw [startDrawing_hist], by rw [startDrawing_hist],
      (draw_hist_meta s p).1, (draw_hist_meta s p).2.1⟩
  have hdrawing2 : (draw (startDrawing st (10, 10)) (40, 10)).isDrawing = true := by
    rw [(draw_hist_meta _ _).2.2, startDrawing_isDrawing _ _ httext]
  have hhist2 : (draw (startDrawing st (10, 10)) (40, 10)).hist.history
      = st.hist.history := by
    rw [(draw_hist_meta _ _).1, startDrawing_hist]
  have hstep2 : (draw (startDrawing st (10, 10)) (40, 10)).hist.historyStep
      = st.hist.historyStep := by
    rw [(draw_hist_meta _ _).2.1, startDrawing_hist]
  have hstop : stopDrawing (draw (startDrawing st (10, 10)) (40, 10))
      = { draw (startDrawing st (10, 10)) (40, 10) with
          isDrawing := false
          startPos := none
          snapshot := none
          hist := saveCanvasToHistory (draw (startDrawing st (10, 10)) (40, 10)).hist } := by
    unfold stopDrawing
    rw [if_pos hdrawing2]
  refine ⟨hsurf, hradius, hmeta, ?_, ?_⟩
  · rw [hstop]
    show (saveCanvasToHistory (draw (startDrawing st (10, 10)) (40, 10)).hist).history
        = st.hist.history ++ [(draw (startDrawing st (10, 10)) (40, 10)).hist.surface]
    unfold saveCanvasToHistory
    dsimp only
    rw [hhist2, hstep2, htip]
    congr 1
    have hlen : ((st.hist.history.length : Int) - 1 + 1).toNat = st.hist.history.length := by
      omega
    rw [hlen, List.take_length]
  · rw [hstop]
    show (saveCanvasToHistory (draw (startDrawing st (10, 10)) (40, 10)).hist).historyStep
        = st.hist.historyStep + 1
    unfold saveCanvasToHistory
    dsimp only
    rw [hstep2]

/-- A concrete initial state for the circle scenario: shape tool in circle
mode, default color, empty history, blank canvas, no stroke in progress. -/
def circleDemoState : EState :=
  { tool := .shape
    selectedShape := .circle
    color := "#135bec"
    isDarkMode := false
    isDrawing := false
    hist := ⟨[], -1, []⟩
    startPos := none
    snapshot := none
    pathPos := none
    isShiftPressed := false }

/-- Witness for C4 at the concrete state `circleDemoState`: the dragged
sample paints exactly the circle op centered `(10, 10)` with squared radius
`900`, and pointer-up commits exactly one snapshot. -/
theorem shape_circle_commit_witness :
    (draw (startDrawing circleDemoState (10, 10)) (40, 10)).hist.surface
        = circleDemoState.hist.surface
            ++ [⟨⟨2, 1, .sourceOver, circleDemoState.color⟩, .circle 10 10 900⟩]
    ∧ (stopDrawing (draw (startDrawing circleDemoState (10, 10)) (40, 10))).hist.history
        = circleDemoState.hist.history
            ++ [(draw (startDrawing circleDemoState (10, 10)) (40, 10)).hist.surface] :=
  ⟨(shape_circle_commit circleDemoState rfl rfl (by simp [circleDemoState])).1,
   (shape_circle_commit circleDemoState rfl rfl (by simp [circleDemoState])).2.2.2.1⟩

/-- The property that a primitive is the single preview primitive painted
from the start coordinate `s` to the current coordinate `c`, in the exact
geometry the source draws for each kind: rect spanning start to current,
circle centered at the start with the squared distance to the current point,
the isoceles triangle with apex at the horizontal midpoint of the start and
base at the vertical offset of the current point, or the straight segment
from start to current. -/
def primSpans (p : Prim) (s c : ℚ × ℚ) : Prop :=
  match p with
  | .rect x y w h => x = s.1 ∧ y = s.2 ∧ w = c.1 - s.1 ∧ h = c.2 - s.2
  | .circle cx cy rsq =>
      cx = s.1 ∧ cy = s.2
      ∧ rsq = (c.1 - s.1) * (c.1 - s.1) + (c.2 - s.2) * (c.2 - s.2)
  | .triangle x1 y1 x2 y2 x3 y3 =>
      x1 = s.1 + (c.1 - s.1) / 2 ∧ y1 = s.2 ∧ x2 = s.1 ∧ y2 = s.2 + (c.2 - s.2)
      ∧ x3 = s.1 + (c.1 - s.1) ∧ y3 = s.2 + (c.2 - s.2)
  | .segment x1 y1 x2 y2 => x1 = s.1 ∧ y1 = s.2 ∧ x2 = c.1 ∧ y2 = c.2

/-- Claim C5, amended: on every move sample of a stroke in progress where the
active tool is `shape`, or the Shift modifier is held while one of the
freehand inking tools `fine_liner`, `pen`, `marker`, `highlighter` is active
(the eraser is excluded: the source condition is
`tool === 'shape' || (tool !== 'eraser' && isShiftPressed)`, so a Shift-eraser
sample paints incrementally instead), the renderer first restores the
pre-stroke snapshot captured at stroke begin and then paints exactly one
preview primitive from the start coordinate to the current coordinate. -/
theorem preview_restore_then_single_primitive (st : EState) (pos sp : ℚ × ℚ)
    (snap : Raster)
    (hdrawing : st.isDrawing = true) (hstart : st.startPos = some sp)
    (hsnap : st.snapshot = some snap)
    (hcond : st.tool = .shape
      ∨ (st.isShiftPressed = true
          ∧ (st.tool = .fine_liner ∨ st.tool = .pen ∨ st.tool = .marker
              ∨ st.tool = .highlighter))) :
    ∃ op : RenderOp,
      (draw st pos).hist.surface = snap ++ [op] ∧ primSpans op.prim sp pos := by
  rcases hcond with htool | ⟨hshift, htool4⟩
  · cases hsel : st.selectedShape with
    | rect =>
      refine ⟨⟨⟨2, 1, .sourceOver, st.color⟩,
        .rect sp.1 sp.2 (pos.1 - sp.1) (pos.2 - sp.2)⟩, ?_, ?_⟩
      · simp [draw, hstart, hdrawing, hsnap, htool, hsel]
      · exact ⟨rfl, rfl, rfl, rfl⟩
    | circle =>
      refine ⟨⟨⟨2, 1, .sourceOver, st.color⟩,
        .circle sp.1 sp.2
          ((pos.1 - sp.1) * (pos.1 - sp.1) + (pos.2 - sp.2) * (pos.2 - sp.2))⟩, ?_, ?_⟩
      · simp [draw, hstart, hdrawing, hsnap, htool, hsel]
      · exact ⟨rfl, rfl, rfl⟩
    | triangle =>
      refine ⟨⟨⟨2, 1, .sourceOver, st.color⟩,
        .triangle (sp.1 + (pos.1 - sp.1) / 2) sp.2 sp.1 (sp.2 + (pos.2 - sp.2))
          (sp.1 + (pos.1 - sp.1)) (sp.2 + (pos.2 - sp.2))⟩, ?_, ?_⟩
      · simp [draw, hstart, hdrawing, hsnap, htool, hsel]
      · exact ⟨rfl, rfl, rfl, rfl, rfl, rfl⟩
    | line =>
      refine ⟨⟨⟨2, 1, .sourceOver, st.color⟩, .segment sp.1 sp.2 pos.1 pos.2⟩, ?_, ?_⟩
      · simp [draw, hstart, hdrawing, hsnap, htool, hsel]
      · exact ⟨rfl, rfl, rfl, rfl⟩
  · rcases htool4 with htool | htool | htool | htool
    · refine ⟨⟨⟨1, 1, .sourceOver, st.color⟩, .segment sp.1 sp.2 pos.1 pos.2⟩, ?_, ?_⟩
      · simp [draw, hstart, hdrawing, hsnap, htool, hshift]
      · exact ⟨rfl, rfl, rfl, rfl⟩
    · refine ⟨⟨⟨3, 1, .sourceOver, st.color⟩, .segment sp.1 sp.2 pos.1 pos.2⟩, ?_, ?_⟩
      · simp [draw, hstart, hdrawing, hsnap, htool, hshift]
      · exact ⟨rfl, rfl, rfl, rfl⟩
    · refine ⟨⟨⟨8, 1, .sourceOver, st.color⟩, .segment sp.1 sp.2 pos.1 pos.2⟩, ?_, ?_⟩
      · simp [draw, hstart, hdrawing, hsnap, htool, hshift]
      · exact ⟨rfl, rfl, rfl, rfl⟩
    · refine ⟨⟨⟨24, 0.35, .multiply, st.color⟩, .segment sp.1 sp.2 pos.1 pos.2⟩, ?_, ?_⟩
      · simp [draw, hstart, hdrawing, hsnap, htool, hshift]
      · exact ⟨rfl, rfl, rfl, rfl⟩

/-- Witness for the amended C5 at a concrete input: the shape tool in circle
mode, mid-stroke at start `(0, 0)` with the empty pre-stroke snapshot,
sampled at `(3, 4)`. -/
theorem preview_restore_then_single_primitive_witness :
    ∃ op : RenderOp,
      (draw { circleDemoState with
                isDrawing := true
                startPos := some (0, 0)
                snapshot := some [] } ((3 : ℚ), (4 : ℚ))).hist.surface
          = [] ++ [op]
      ∧ primSpans op.prim (0, 0) (3, 4) :=
  preview_restore_then_single_primitive _ (3, 4) (0, 0) [] rfl rfl rfl (Or.inl rfl)

/-- A previously painted freehand op, making the mid-stroke surface differ
from the pre-stroke snapshot. -/
def freehandDemoOp : RenderOp := ⟨⟨3, 1, .sourceOver, "#135bec"⟩, .segment 0 0 1 1⟩

/-- A mid-stroke state with the eraser active and Shift held: the pre-stroke
snapshot is the empty raster, but one preview segment has already been
painted onto the surface. -/
def eraserShiftState : EState :=
  { tool := .eraser
    selectedShape := .rect
    color := "#135bec"
    isDarkMode := false
    isDrawing := true
    hist := ⟨[], -1, [freehandDemoOp]⟩
    startPos := some (0, 0)
    snapshot := some []
    pathPos := some (0, 0)
    isShiftPressed := true }

/-- Counterexample to claim C5 as stated: the eraser is a freehand
(non-shape, non-text) tool, Shift is held, and a stroke is in progress with
pre-stroke snapshot `[]`, yet the move sample at `(5, 5)` does not restore
the snapshot and paint one primitive — the source condition
`tool !== 'eraser' && isShiftPressed` excludes the eraser, so the sample
accumulates incrementally on the current surface (two ops result, where the
claimed restore-then-preview pattern would leave exactly one). -/
theorem eraser_shift_preview_not_restored :
    (eraserShiftState.isShiftPressed = true
      ∧ eraserShiftState.tool ≠ .shape
      ∧ eraserShiftState.tool ≠ .text
      ∧ eraserShiftState.isDrawing = true
      ∧ eraserShiftState.snapshot = some [])
    ∧ (draw eraserShiftState (5, 5)).hist.surface
        = [freehandDemoOp, ⟨⟨40, 1, .destinationOut, "white"⟩, .segment 0 0 5 5⟩]
    ∧ ¬ ∃ op : RenderOp,
        (draw eraserShiftState (5, 5)).hist.surface = [] ++ [op]
          ∧ primSpans op.prim (0, 0) (5, 5) := by
  have hc : (draw eraserShiftState (5, 5)).hist.surface
      = [freehandDemoOp, ⟨⟨40, 1, .destinationOut, "white"⟩, .segment 0 0 5 5⟩] := by
    simp [draw, eraserShiftState]
  refine ⟨⟨rfl, by decide, by decide, rfl, rfl⟩, hc, ?_⟩
  rintro ⟨op, h, -⟩
  rw [hc] at h
  have hlen := congrArg List.length h
  simp at hlen

/-! ## AnnotationStore: highlights and threaded comments

Source: src/components/Editor.tsx, state `highlights : Record<string,
Highlight>`, `activeHighlightId : string | null`, `newComment : string`,
handlers `handleHighlight` and `addComment`; types from src (types module):
`Comment {id, text, author, createdAt}`, `Highlight {id, color, comments}`.

A JS string-keyed record is modelled as an association list with the object
update semantics of `{...prev, [id]: v}`: an existing key keeps its position
and gets the new value, a new key is appended.  `Date.now()` and the
generated ids (`'hl_' + Date.now()`, `'c_' + Date.now()`) are inputs of the
model.  JS `String.prototype.trim` is modelled by `jsTrim`; a
`string | null` value is falsy exactly when it is null or empty, which the
guards below spell out. -/

/-- JS `String.prototype.trim`: drop leading and trailing whitespace. -/
def jsTrim (s : String) : String :=
  String.mk (((s.data.dropWhile Char.isWhitespace).reverse.dropWhile
    Char.isWhitespace).reverse)

/-- Source `Comment` (src types module). -/
structure Comment where
  id : String
  text : String
  author : String
  createdAt : Int
deriving DecidableEq, Repr

/-- Source `Highlight` (src types module). -/
structure Highlight where
  id : String
  color : String
  comments : List Comment
deriving DecidableEq, Repr

/-- JS object property read `m[key]` on a string-keyed record. -/
def lookupAssoc : List (String × Highlight) → String → Option Highlight
  | [], _ => none
  | (k, v) :: rest, key => if k = key then some v else lookupAssoc rest key

/-- JS object spread update `{...m, [key]: v}`: replace in place if the key
exists, append otherwise. -/
def updateAssoc : List (String × Highlight) → String → Highlight → List (String × Highlight)
  | [], key, v => [(key, v)]
  | (k, w) :: rest, key, v =>
      if k = key then (key, v) :: rest else (k, w) :: updateAssoc rest key v

/-- The annotation-related component state of the editor. -/
structure AnnState where
  highlights : List (String × Highlight)
  activeHighlightId : Option String
  newComment : String
deriving DecidableEq, Repr

/-- The text selection the source reads from `window.getSelection()`:
`rangeCount`, `isCollapsed`, and whether `range.surroundContents(span)` on
its first range throws because the range partially spans multiple
block-level containers.  The throwing condition itself is behaviour of the
external DOM collaborator, modelled from the spec: wrapping fails exactly
when the range spans multiple independent block-level containers. -/
structure Selection where
  rangeCount : Nat
  isCollapsed : Bool
  spansMultipleBlocks : Bool
deriving DecidableEq, Repr

/-- Source `handleHighlight` with highlight color `hColor` and generated id
`newId` (`'hl_' + Date.now()`): bail out when there is no selection, no
range, or the selection is collapsed; try `range.surroundContents(span)` —
on throw, `console.warn` (the Boolean result records that the diagnostic was
emitted) and leave the state untouched; on success, store
`{id, color, comments: []}` and make it active.  The trailing
`selection.removeAllRanges()` only mutates the external DOM selection. -/
def handleHighlight (st : AnnState) (sel : Option Selection) (hColor newId : String) :
    AnnState × Bool :=
  match sel with
  | none => (st, false)
  | some s =>
    if s.rangeCount = 0 ∨ s.isCollapsed = true then (st, false)
    else if s.spansMultipleBlocks = true then (st, true)
    else
      ({ st with
          highlights := updateAssoc st.highlights newId ⟨newId, hColor, []⟩
          activeHighlightId := some newId }, false)

/-- Source `addComment` with current timestamp `now` and generated comment id
`cid` (`'c_' + Date.now()`): bail out (`return`) when `activeHighlightId` is
falsy (null or empty) or the draft text trims to empty; otherwise build the
comment `{id: cid, text: newComment, author: 'Me', createdAt: now}` and
append it to `prev[activeHighlightId].comments`.  When the active id does
not resolve to a stored highlight, `prev[activeHighlightId]` is `undefined`
and spreading `.comments` throws a TypeError — modelled as `none`; the
defined results are `some`. -/
def addComment (st : AnnState) (now : Int) (cid : String) : Option AnnState :=
  match st.activeHighlightId with
  | none => some st
  | some hid =>
    if hid = "" ∨ jsTrim st.newComment = "" then some st
    else
      match lookupAssoc st.highlights hid with
      | none => none
      | some h =>
        some { st with
          highlights := updateAssoc st.highlights hid
            { h with comments := h.comments ++ [⟨cid, st.newComment, "Me", now⟩] }
          newComment := "" }

lemma lookupAssoc_updateAssoc_self (m : List (String × Highlight)) (k : String)
    (v : Highlight) : lookupAssoc (updateAssoc m k v) k = some v := by
  induction m with
  | nil => simp [updateAssoc, lookupAssoc]
  | cons p rest ih =>
    obtain ⟨pk, pv⟩ := p
    unfold updateAssoc
    split_ifs with h
    · simp [lookupAssoc]
    · unfold lookupAssoc
      rw [if_neg h]
      exact ih

lemma lookupAssoc_updateAssoc_other (m : List (String × Highlight)) (k : String)
    (v : Highlight) (k' : String) (hne : k' ≠ k) :
    lookupAssoc (updateAssoc m k v) k' = lookupAssoc m k' := by
  induction m with
  | nil =>
    simp only [updateAssoc, lookupAssoc]
    rw [if_neg (fun h2 => hne h2.symm)]
  | cons p rest ih =>
    obtain ⟨pk, pv⟩ := p
    unfold updateAssoc
    split_ifs with h
    · subst h
      unfold lookupAssoc
      rw [if_neg (fun h2 => hne h2.symm), if_neg (fun h2 => hne h2.symm)]
    · unfold lookupAssoc
      by_cases h2 : pk = k'
      · rw [if_pos h2, if_pos h2]
      · rw [if_neg h2, if_neg h2]
        exact ih

/-- Claim C9: `createHighlight` is a no-op for a missing, rangeless, or
collapsed selection, and when wrapping fails because the range spans
multiple block-level containers, the failure is reported only to the
diagnostic channel (`console.warn`), no highlight is created, and the
highlight map and active-highlight state are exactly as before (atomic
abandonment); on success, exactly the new highlight with empty thread is
stored and made active. -/
theorem createHighlight_precondition_and_atomic_failure (st : AnnState)
    (sel : Option Selection) (hColor newId : String) :
    (sel = none → handleHighlight st sel hColor newId = (st, false))
    ∧ (∀ s : Selection, sel = some s → s.rangeCount = 0 →
        handleHighlight st sel hColor newId = (st, false))
    ∧ (∀ s : Selection, sel = some s → s.isCollapsed = true →
        handleHighlight st sel hColor newId = (st, false))
    ∧ (∀ s : Selection, sel = some s → s.rangeCount ≠ 0 → s.isCollapsed = false →
        s.spansMultipleBlocks = true →
        handleHighlight st sel hColor newId = (st, true))
    ∧ (∀ s : Selection, sel = some s → s.rangeCount ≠ 0 → s.isCollapsed = false →
        s.spansMultipleBlocks = false →
        handleHighlight st sel hColor newId
          = ({ st with
                highlights := updateAssoc st.highlights newId ⟨newId, hColor, []⟩
                activeHighlightId := some newId }, false)) := by
  refine ⟨?_, ?_, ?_, ?_, ?_⟩
  · intro hax
    simp only [handleHighlight, hax]
  · intro s hax hrc
    simp only [handleHighlight, hax]
    rw [if_pos (Or.inl hrc)]
  · intro s hax hcol
    simp only [handleHighlight, hax]
    rw [if_pos (Or.inr hcol)]
  · intro s hax hrc hcol hspan
    simp only [handleHighlight, hax]
    rw [if_neg (by simp [hrc, hcol]), if_pos hspan]
  · intro s hax hrc hcol hspan
    simp only [handleHighlight, hax]
    rw [if_neg (by simp [hrc, hcol]), if_neg (by simp [hspan])]

/-- A stored highlight used in the concrete annotation scenarios. -/
def demoHighlight : Highlight := ⟨"a", "#fef08a", []⟩

/-- Witness for C9 at concrete inputs: a collapsed selection is a no-op, and
a selection spanning multiple blocks warns and leaves the state exactly as
before. -/
theorem createHighlight_precondition_and_atomic_failure_witness :
    handleHighlight ⟨[("a", demoHighlight)], none, ""⟩
        (some ⟨1, true, false⟩) "#fef08a" "hl_1"
      = (⟨[("a", demoHighlight)], none, ""⟩, false)
    ∧ handleHighlight ⟨[("a", demoHighlight)], none, ""⟩
        (some ⟨1, false, true⟩) "#fef08a" "hl_1"
      = (⟨[("a", demoHighlight)], none, ""⟩, true) :=
  ⟨(createHighlight_precondition_and_atomic_failure _ _ "#fef08a" "hl_1").2.2.1
      ⟨1, true, false⟩ rfl rfl,
   (createHighlight_precondition_and_atomic_failure _ _ "#fef08a" "hl_1").2.2.2.1
      ⟨1, false, true⟩ rfl (by decide) rfl rfl⟩

/-- Claim C10, amended: `addComment` is a no-op exactly when no highlight is
active (the active id is null or empty) or the comment text is empty or
whitespace-only; when a highlight is active with non-blank text and the id
resolves to a stored highlight, it appends exactly one new `Comment` with
the generated id and current timestamp to the end of that highlight thread
and leaves every other highlight unchanged (the final two conjuncts state
the update/lookup laws); when a highlight is active with non-blank text but
the id does not resolve to a stored highlight, the source throws a TypeError
(`prev[activeHighlightId].comments` on `undefined`) instead of a silent
no-op. -/
theorem addComment_guard_append_throw (st : AnnState) (now : Int) (cid : String) :
    ((st.activeHighlightId = none ∨ st.activeHighlightId = some ""
        ∨ jsTrim st.newComment = "") → addComment st now cid = some st)
    ∧ (∀ (hid : String) (h : Highlight), st.activeHighlightId = some hid → hid ≠ ""
        → jsTrim st.newComment ≠ "" → lookupAssoc st.highlights hid = some h →
        addComment st now cid
          = some { st with
              highlights := updateAssoc st.highlights hid
                { h with comments := h.comments ++ [⟨cid, st.newComment, "Me", now⟩] }
              newComment := "" })
    ∧ (∀ hid : String, st.activeHighlightId = some hid → hid ≠ ""
        → jsTrim st.newComment ≠ "" → lookupAssoc st.highlights hid = none →
        addComment st now cid = none)
    ∧ (∀ (m : List (String × Highlight)) (k : String) (v : Highlight),
        lookupAssoc (updateAssoc m k v) k = some v)
    ∧ (∀ (m : List (String × Highlight)) (k : String) (v : Highlight) (k' : String),
        k' ≠ k → lookupAssoc (updateAssoc m k v) k' = lookupAssoc m k') := by
  refine ⟨?_, ?_, ?_, lookupAssoc_updateAssoc_self, lookupAssoc_updateAssoc_other⟩
  · intro hguard
    cases hax : st.activeHighlightId with
    | none => simp only [addComment, hax]
    | some hid =>
      rw [hax] at hguard
      have hdisj : hid = "" ∨ jsTrim st.newComment = "" := by
        rcases hguard with h | h | h
        · exact absurd h (by simp)
        · exact Or.inl (by simpa using h)
        · exact Or.inr h
      simp only [addComment, hax]
      rw [if_pos hdisj]
  · intro hid h hax hne htrim hlook
    simp only [addComment, hax]
    rw [if_neg (by simp [hne, htrim]), hlook]
  · intro hid hax hne htrim hlook
    simp only [addComment, hax]
    rw [if_neg (by simp [hne, htrim]), hlook]

/-- The annotation state of the comment scenario: one stored highlight with
id `"a"`, active, with the draft text `"check this"`. -/
def liveCommentState : AnnState := ⟨[("a", demoHighlight)], some "a", "check this"⟩

/-- Witness for the amended C10 at a concrete input: posting the draft
`"check this"` on the live highlight `"a"` appends exactly that comment with
the generated id and timestamp and clears the draft. -/
theorem addComment_guard_append_throw_witness :
    addComment liveCommentState 5 "c_5"
      = some { liveCommentState with
          highlights := updateAssoc liveCommentState.highlights "a"
            { demoHighlight with
                comments := demoHighlight.comments ++ [⟨"c_5", "check this", "Me", 5⟩] }
          newComment := "" } :=
  (addComment_guard_append_throw liveCommentState 5 "c_5").2.1 "a" demoHighlight rfl
    (by decide) (by decide) (by decide)

/-- The annotation state whose active highlight id `"x"` does not resolve to
a stored highlight (only `"a"` is stored), with a non-blank draft. -/
def danglingCommentState : AnnState := ⟨[("a", demoHighlight)], some "x", "hi"⟩

/-- Counterexample to claim C10 as stated: with a non-blank draft and the
active id `"x"` not resolving to a live highlight, the source does not
silently no-op — `prev['x'].comments` throws a TypeError (result `none`),
so the result is neither the unchanged state nor any state at all. -/
theorem addComment_dangling_throws :
    addComment danglingCommentState 0 "c_0" = none
    ∧ addComment danglingCommentState 0 "c_0" ≠ some danglingCommentState := by
  have h : addComment danglingCommentState 0 "c_0" = none := by decide
  exact ⟨h, by rw [h]; simp⟩

end MyBooklet
